import Mathlib

/-!
Verification of the session admission, registry and broadcast-relay
subsystem of the mt5server repository (server.js = src/unnamed/part_001,
database.js, auth.js = src/unnamed/part_003), as a shallow embedding.

JavaScript values that the code inspects only for truthiness or passes
through are modelled by `JsVal`; the two in-memory `Map`s keeping the
master and receiver partitions are modelled by insertion-ordered
association lists with the `Map.get/set/has/delete` operations; the
observable side effects of a handler (console output, database writes,
transport sends and closes) are collected in an explicit `Effect` list.
-/

/-- A JavaScript value as far as the relay inspects it: strings, numbers
(the code only ever passes them through or tests truthiness, so integers
suffice), booleans, `null` and `undefined`. -/
inductive JsVal where
  | vstr (s : String)
  | vnum (n : Int)
  | vbool (b : Bool)
  | vnull
  | vundefined
deriving DecidableEq

/-- JavaScript truthiness of a `JsVal`. -/
def JsVal.truthy : JsVal → Bool
  | .vstr s => !(s.isEmpty)
  | .vnum n => n != 0
  | .vbool b => b
  | .vnull => false
  | .vundefined => false

/-- The JavaScript `||` operator: the left operand if truthy, otherwise
the right operand. -/
def JsVal.jsOr (v d : JsVal) : JsVal :=
  if v.truthy then v else d

/-- A row of the `licenses` table (database.js `init`): status defaults
to 'active', `activation_count` defaults to 0, `last_verified` starts
NULL. -/
structure License where
  license_key : String
  user_email : String
  status : String
  expiry_date : Int
  last_verified : Option Int
  activation_count : Option Int
deriving DecidableEq

/-- `db.getLicense(data.licenseKey)`: the lookup keys the `licenses`
table by its TEXT key, so only a string credential can match a row. -/
def lookupLicense (env : String → Option License) (lk : JsVal) : Option License :=
  match lk with
  | .vstr s => env s
  | _ => none

/-- The rejection test of `registerReceiver` (server.js line 410) and of
`/api/register-receiver` (line 258):
`!license || license.status !== 'active' || now > license.expiry_date`. -/
def licenseRejected (l : Option License) (now : Int) : Bool :=
  match l with
  | none => true
  | some lic => decide (lic.status ≠ "active") || decide (now > lic.expiry_date)

/-- `auth.verifyAPIKey` (auth.js): `apiKey && apiKey.length > 16`; for a
non-string value `apiKey.length` is `undefined` and the comparison is
false. -/
def verifyAPIKey (v : JsVal) : Bool :=
  match v with
  | .vstr s => decide (s.length > 16)
  | _ => false

/-- The `CASE` expression of `db.updateLicenseVerified` (database.js
lines 186-194): NULL becomes 1, a count below 1 is incremented, any
other count is left unchanged. -/
def newActivationCount (c : Option Int) : Int :=
  match c with
  | none => 1
  | some k => if k < 1 then k + 1 else k

/-- `db.updateLicenseVerified` applied to the row it matches: sets
`last_verified` to now and updates `activation_count` by the CASE
expression. -/
def updateLicenseVerified (now : Int) (l : License) : License :=
  { l with last_verified := some now,
           activation_count := some (newActivationCount l.activation_count) }

/-- A sequence of successful verification events applied to one license
row, each carrying its wall-clock second. -/
def verifySeq (ts : List Int) (l : License) : License :=
  ts.foldl (fun acc t => updateLicenseVerified t acc) l

/-- A WebSocket handle as the relay observes it: its `readyState`
(1 = OPEN) and whether `ws.send` throws on this handle. -/
structure Transport where
  readyState : Nat
  sendFails : Bool
deriving DecidableEq

/-- The trade object of a trade-signal message / the `/api/send-trade`
body: the fields the server reads. -/
structure Trade where
  symbol : JsVal
  action : JsVal
  volume : JsVal
  sl : JsVal
  tp : JsVal
  licenseKey : JsVal
deriving DecidableEq

/-- Server-to-client payloads built by the relay. -/
inductive WireMsg where
  | tradeSignal (trade : Trade) (timestamp : Int)
  | connectionUpdate (masters : Nat)
  | receiverUpdate (totalReceivers : Nat)
  | pong (timestamp : Int)
deriving DecidableEq

/-- An observable side effect of a handler: console output, a database
write, or a transport action. `dbLog` carries the `receivers` count of
the broadcast log entry's metadata when the source puts one there. -/
inductive Effect where
  | consoleLog (s : String)
  | consoleError (s : String)
  | dbLog (level msg : String) (receiversMeta : Option Nat)
  | dbLogTrade (licenseKey symbol action volume sl tp : JsVal)
  | dbAddConnection (id ty : String) (licenseKey : JsVal)
  | dbRemoveConnection (id : String)
  | dbUpdateConnectionPing (id : String)
  | dbUpdateLicenseVerified (licenseKey : JsVal)
  | dbDeleteStaleConnections (cutoff : Int)
  | dbTrimLogs (keep : Nat)
  | wsSend (sessionId : String) (payload : WireMsg)
  | wsReply (payload : WireMsg)
  | wsClose (sessionId : String) (code : Nat) (reason : String)
deriving DecidableEq

/-- The value stored in `connections.masters` (server.js line 387). -/
structure MasterEntry where
  ws : Option Transport
  apiKey : JsVal
  connected : Int
  ping : Int
  ipAddress : String
  lastPing : Option Int
deriving DecidableEq

/-- The value stored in `connections.receivers` (server.js line 416). -/
structure ReceiverEntry where
  ws : Option Transport
  licenseKey : JsVal
  connected : Int
  riskMode : JsVal
  ipAddress : String
  lastPing : Option Int
deriving DecidableEq

/-- `Map.prototype.get`, on an insertion-ordered association list. -/
def mapGet {α : Type} (m : List (String × α)) (k : String) : Option α :=
  match m with
  | [] => none
  | p :: rest => if p.1 = k then some p.2 else mapGet rest k

/-- `Map.prototype.has`. -/
def mapHas {α : Type} (m : List (String × α)) (k : String) : Bool :=
  (mapGet m k).isSome

/-- `Map.prototype.set`: replace the entry in place if the key is
present, otherwise append at the end (insertion order preserved). -/
def mapSet {α : Type} (m : List (String × α)) (k : String) (v : α) :
    List (String × α) :=
  match m with
  | [] => [(k, v)]
  | p :: rest => if p.1 = k then (k, v) :: rest else p :: mapSet rest k v

/-- `Map.prototype.delete` (the key occurs at most once in a `Map`). -/
def mapDelete {α : Type} (m : List (String × α)) (k : String) :
    List (String × α) :=
  match m with
  | [] => []
  | p :: rest => if p.1 = k then rest else p :: mapDelete rest k

/-- The `connections` object (server.js line 31): the in-memory session
registry, partitioned by role. -/
structure ServerState where
  masters : List (String × MasterEntry)
  receivers : List (String × ReceiverEntry)
deriving DecidableEq

/-- One iteration of `broadcastToReceivers` / `broadcastToMasters`
(server.js lines 500-524): the send is guarded by
`conn && conn.ws && conn.ws.readyState === 1` and wrapped in a
try/catch that logs a send failure. -/
def statusSend (msg : WireMsg) (p : String × Option Transport) : List Effect :=
  match p.2 with
  | some w =>
      if w.readyState = 1 then
        if w.sendFails then [.consoleError "Error broadcasting"]
        else [.wsSend p.1 msg]
      else []
  | none => []

/-- The shared fan-out loop of the two status broadcast helpers. -/
def statusFanout (msg : WireMsg) (conns : List (String × Option Transport)) :
    List Effect :=
  conns.foldl (fun acc p => acc ++ statusSend msg p) []

/-- `broadcastToReceivers` (server.js line 500). -/
def broadcastToReceivers (msg : WireMsg) (s : ServerState) : List Effect :=
  statusFanout msg (s.receivers.map (fun p => (p.1, p.2.ws)))

/-- `broadcastToMasters` (server.js line 513). -/
def broadcastToMasters (msg : WireMsg) (s : ServerState) : List Effect :=
  statusFanout msg (s.masters.map (fun p => (p.1, p.2.ws)))

/-- `registerMaster` (server.js lines 380-404): an invalid API key
closes the transport with code 1008 and returns; otherwise the master
partition gains (or refreshes) the entry, the connection is persisted,
the registration is logged, and the new master count is fanned out to
the receivers. -/
def registerMaster (id : String) (ws : Transport) (apiKey : JsVal)
    (ip : String) (now : Int) (s : ServerState) : ServerState × List Effect :=
  if !verifyAPIKey apiKey then
    (s, [.wsClose id 1008 "Invalid API key"])
  else
    let masters' := mapSet s.masters id
      { ws := some ws, apiKey := apiKey, connected := now, ping := 0,
        ipAddress := ip, lastPing := none }
    let s' : ServerState := { s with masters := masters' }
    (s', [.dbAddConnection id "master" .vnull,
          .dbLog "info" "Master registered" none]
         ++ broadcastToReceivers (.connectionUpdate masters'.length) s'
         ++ [.consoleLog "Master registered"])

/-- `registerReceiver` (server.js lines 406-433): a missing, inactive
or expired license closes the transport with code 1008 and logs a
warning; otherwise the receiver partition gains (or refreshes) the
entry, the connection is persisted with the license key, the
registration is logged, and the new receiver count is fanned out to the
masters. -/
def registerReceiver (env : String → Option License) (id : String)
    (ws : Transport) (licenseKey riskMode : JsVal) (ip : String) (now : Int)
    (s : ServerState) : ServerState × List Effect :=
  let license := lookupLicense env licenseKey
  if licenseRejected license now then
    (s, [.wsClose id 1008 "Invalid or expired license",
         .dbLog "warn" "Receiver rejected" none])
  else
    let receivers' := mapSet s.receivers id
      { ws := some ws, licenseKey := licenseKey, connected := now,
        riskMode := riskMode.jsOr (.vnum 1), ipAddress := ip, lastPing := none }
    let s' : ServerState := { s with receivers := receivers' }
    (s', [.dbAddConnection id "receiver" licenseKey,
          .dbLog "info" "Receiver registered" none]
         ++ broadcastToMasters (.receiverUpdate receivers'.length) s'
         ++ [.consoleLog "Receiver registered"])

/-- `unregisterMaster` (server.js lines 435-443). -/
def unregisterMaster (id : String) (s : ServerState) :
    ServerState × List Effect :=
  if mapHas s.masters id then
    let s' : ServerState := { s with masters := mapDelete s.masters id }
    (s', [.dbRemoveConnection id]
         ++ broadcastToReceivers (.connectionUpdate s'.masters.length) s')
  else (s, [])

/-- `unregisterReceiver` (server.js lines 445-453). -/
def unregisterReceiver (id : String) (s : ServerState) :
    ServerState × List Effect :=
  if mapHas s.receivers id then
    let s' : ServerState := { s with receivers := mapDelete s.receivers id }
    (s', [.dbRemoveConnection id]
         ++ broadcastToMasters (.receiverUpdate s'.receivers.length) s')
  else (s, [])

/-- `handlePing` (server.js lines 526-539): persist the ping time, then
set `lastPing` on the registry entry of that connection id in whichever
partition holds it. -/
def handlePing (id : String) (now : Int) (s : ServerState) :
    ServerState × List Effect :=
  let masters' :=
    match mapGet s.masters id with
    | some m => mapSet s.masters id { m with lastPing := some now }
    | none => s.masters
  let receivers' :=
    match mapGet s.receivers id with
    | some r => mapSet s.receivers id { r with lastPing := some now }
    | none => s.receivers
  (⟨masters', receivers'⟩, [.dbUpdateConnectionPing id])

/-- One iteration of the `broadcastTradeSignal` fan-out (server.js
lines 485-494): inside a per-recipient try/catch, the send is guarded
by `receiver && receiver.ws`; a successful hand-off increments `sent`,
a throwing send is caught and logged. -/
def deliverStep (msg : WireMsg) (acc : Nat × List Effect)
    (p : String × ReceiverEntry) : Nat × List Effect :=
  match p.2.ws with
  | some w =>
      if w.sendFails then (acc.1, acc.2 ++ [.consoleError "Error sending to receiver"])
      else (acc.1 + 1, acc.2 ++ [.wsSend p.1 msg])
  | none => acc

/-- The result of `broadcastTradeSignal`: its effects, the final value
of the `sent` counter, and the function's JavaScript return value
(`ret`). -/
structure BroadcastOut where
  effects : List Effect
  sent : Nat
  ret : Option Nat
deriving DecidableEq

/-- `broadcastTradeSignal` (server.js lines 455-498): reject a
non-object trade; persist the trade with `||` fallbacks; fan the
trade-signal message out over the receiver partition with per-recipient
error handling; log the count. The source has no `return` statement, so
the JavaScript return value is `undefined`, modelled as `ret := none`. -/
def broadcastTradeSignal (s : ServerState) (trade : Option Trade)
    (now : Int) : BroadcastOut :=
  match trade with
  | none => { effects := [.consoleError "Invalid trade signal"], sent := 0, ret := none }
  | some t =>
      let logEff := Effect.dbLogTrade (t.licenseKey.jsOr (.vstr "master"))
        (t.symbol.jsOr (.vstr "UNKNOWN")) (t.action.jsOr (.vstr "UNKNOWN"))
        (t.volume.jsOr (.vnum 0)) (t.sl.jsOr .vnull) (t.tp.jsOr .vnull)
      let msg := WireMsg.tradeSignal t now
      let d := s.receivers.foldl (deliverStep msg) (0, [])
      { effects := [.consoleLog "Broadcasting trade signal", logEff] ++ d.2
          ++ [.consoleLog "Signal sent",
              .dbLog "info" "Trade signal broadcasted" (some d.1)],
        sent := d.1,
        ret := none }

/-- An application message after `JSON.parse` succeeded and the value
passed the object check, classified by its `type` field (server.js
lines 338-360). -/
inductive ClientMsg where
  | registerMaster (apiKey : JsVal)
  | registerReceiver (licenseKey riskMode : JsVal)
  | tradeSignal (trade : Option Trade)
  | ping
  | unknown (ty : String)
deriving DecidableEq

/-- A raw inbound frame as the `ws.on('message')` handler sees it:
`JSON.parse` threw, or the parsed value failed the
`!data || typeof data !== 'object'` check, or it is an object message. -/
inductive Inbound where
  | parseFail
  | nonObject
  | msg (m : ClientMsg)
deriving DecidableEq

/-- The `ws.on('message')` handler (server.js lines 329-365): the
dispatch switch inside a try/catch whose catch logs the error. The
trade-signal case forwards to the relay only when `data.trade` is an
object; the ping case answers with a pong, and a throwing pong send is
caught by the outer catch after the ping was already processed. -/
def handleMessage (env : String → Option License) (c : String)
    (ws : Transport) (ip : String) (now : Int) (s : ServerState)
    (raw : Inbound) : ServerState × List Effect :=
  match raw with
  | .parseFail =>
      (s, [.consoleError "Error handling message",
           .dbLog "error" "WebSocket message error" none])
  | .nonObject => (s, [.consoleLog "Invalid message format from client"])
  | .msg m =>
      match m with
      | .registerMaster apiKey => registerMaster c ws apiKey ip now s
      | .registerReceiver lk rm => registerReceiver env c ws lk rm ip now s
      | .tradeSignal t =>
          match t with
          | some tr => (s, (broadcastTradeSignal s (some tr) now).effects)
          | none => (s, [])
      | .ping =>
          let r := handlePing c now s
          if ws.sendFails then
            (r.1, r.2 ++ [.consoleError "Error handling message",
                          .dbLog "error" "WebSocket message error" none])
          else
            (r.1, r.2 ++ [.wsReply (.pong now)])
      | .unknown ty => (s, [.consoleLog ("Unknown message type: " ++ ty)])

/-- The response body of `/api/send-trade`. -/
structure SendTradeResp where
  status : Nat
  success : Bool
  receivers : Option Nat
deriving DecidableEq

/-- `/api/send-trade` (server.js lines 181-208): missing symbol, action
or volume is a 400; otherwise the trade is logged directly (license key
falling back to 'http-client'), a trade signal is rebuilt from the body
fields and handed to `broadcastTradeSignal`, and the response reports
the size of the receiver partition. -/
def apiSendTrade (s : ServerState) (now : Int)
    (symbol action volume sl tp licenseKey : JsVal) :
    SendTradeResp × List Effect :=
  if !(symbol.truthy && action.truthy && volume.truthy) then
    ({ status := 400, success := false, receivers := none }, [])
  else
    let directLog := Effect.dbLogTrade (licenseKey.jsOr (.vstr "http-client"))
      symbol action volume sl tp
    let t : Trade := ⟨symbol, action, volume, sl, tp, licenseKey⟩
    let b := broadcastTradeSignal s (some t) now
    ({ status := 200, success := true, receivers := some s.receivers.length },
     directLog :: b.effects)

/-- The outcome of `/api/verify-license`. -/
inductive VerifyOutcome where
  | badRequest
  | fail (msg : String)
  | ok (expiryMs : Int) (user : String)
deriving DecidableEq

/-- Whether a `/api/verify-license` outcome is the success response. -/
def VerifyOutcome.isOk : VerifyOutcome → Bool
  | .ok _ _ => true
  | _ => false

/-- `/api/verify-license` (server.js lines 57-97): missing key is a
400; an unknown key logs and fails; an inactive or expired license
fails; otherwise the verification is recorded, logged, and the success
response carries the expiry in milliseconds and the user email. -/
def apiVerifyLicense (env : String → Option License) (now : Int)
    (lk : JsVal) : VerifyOutcome × List Effect :=
  if !lk.truthy then (.badRequest, [])
  else
    match lookupLicense env lk with
    | none => (.fail "Invalid license",
               [.dbLog "info" "License verification failed" none])
    | some lic =>
        if lic.status ≠ "active" then (.fail "License inactive", [])
        else if now > lic.expiry_date then (.fail "License expired", [])
        else (.ok (lic.expiry_date * 1000) lic.user_email,
              [.dbUpdateLicenseVerified lk,
               .dbLog "info" "License verified" none])

/-- A row of the `connections` table, with the columns the periodic
cleanup reads. `last_ping` is NULL-able. -/
structure ConnRow where
  connection_id : String
  type : String
  license_key : JsVal
  last_ping : Option Int
  status : String
deriving DecidableEq

/-- The WHERE clause of the cleanup's DELETE (server.js line 545):
`last_ping < cutoff AND status = 'active'`; a NULL `last_ping` makes
the comparison NULL, hence the row is not matched. -/
def rowStale (cutoff : Int) (r : ConnRow) : Bool :=
  (match r.last_ping with
   | some p => decide (p < cutoff)
   | none => false) && decide (r.status = "active")

/-- The periodic cleanup callback (server.js lines 542-552): with
`cutoff = now − 300`, delete the stale active rows from the
`connections` table and trim the logs; the in-memory `connections`
object is never mentioned, so the registry passes through unchanged. -/
def periodicCleanup (now : Int) (s : ServerState) (tbl : List ConnRow) :
    ServerState × List ConnRow × List Effect :=
  let cutoff := now - 300
  (s, tbl.filter (fun r => !rowStale cutoff r),
   [.dbDeleteStaleConnections cutoff, .dbTrimLogs 10000])

/-- An externally observable event driving the connection handler
(server.js lines 323-378): an inbound frame on a connection, or the
connection closing. -/
inductive Event where
  | message (clientId : String) (ws : Transport) (ip : String)
      (raw : Inbound) (now : Int)
  | closed (clientId : String)
deriving DecidableEq

/-- One event handled by the server: a message goes through the
dispatch switch, a close unregisters the client from both partitions
(server.js lines 367-372). -/
def stepServer (env : String → Option License) (s : ServerState)
    (ev : Event) : ServerState × List Effect :=
  match ev with
  | .message c ws ip raw now => handleMessage env c ws ip now s raw
  | .closed c =>
      let r1 := unregisterMaster c s
      let r2 := unregisterReceiver c r1.1
      (r2.1, r1.2 ++ r2.2 ++ [.dbLog "info" "Client disconnected" none])

/-- Registry states reachable from the empty registry by any sequence
of connection events. -/
inductive Reachable (env : String → Option License) : ServerState → Prop where
  | init : Reachable env ⟨[], []⟩
  | step {s : ServerState} (hs : Reachable env s) (ev : Event) :
      Reachable env (stepServer env s ev).1

/-- The session ids a list of effects hands a payload to. -/
def sendTargets (effs : List Effect) : List String :=
  effs.filterMap fun e =>
    match e with
    | .wsSend id _ => some id
    | _ => none

/-- The wsSend effects of an effect list. -/
def wsSendEffects (effs : List Effect) : List Effect :=
  effs.filter fun e =>
    match e with
    | .wsSend _ _ => true
    | _ => false

/-- The durable trade records an effect list writes. -/
def tradeRecords (effs : List Effect) : List Effect :=
  effs.filter fun e =>
    match e with
    | .dbLogTrade _ _ _ _ _ _ => true
    | _ => false

/-- Whether an effect is any form of logging (console or database). -/
def isLogEffect : Effect → Bool
  | .consoleLog _ => true
  | .consoleError _ => true
  | .dbLog _ _ _ => true
  | _ => false

/-- Whether an effect closes a transport. -/
def isClose : Effect → Bool
  | .wsClose _ _ _ => true
  | _ => false

/-- Whether an effect persists a new/refreshed connection. -/
def isAddConnection : Effect → Bool
  | .dbAddConnection _ _ _ => true
  | _ => false

/-- Count of caught per-recipient send failures in an effect list. -/
def errorLogCount (effs : List Effect) : Nat :=
  (effs.filter fun e =>
    match e with
    | .consoleError _ => true
    | _ => false).length

/-- A receiver entry whose transport hand-off succeeds. -/
def recvOk (p : String × ReceiverEntry) : Bool :=
  match p.2.ws with
  | some w => !w.sendFails
  | none => false

/-- A receiver entry whose transport hand-off throws. -/
def recvFail (p : String × ReceiverEntry) : Bool :=
  match p.2.ws with
  | some w => w.sendFails
  | none => false

/-- An inbound frame that goes to the admission controller. -/
def isRegisterMsg : Inbound → Bool
  | .msg (.registerMaster _) => true
  | .msg (.registerReceiver _ _) => true
  | _ => false

/-- The admission condition as the specification states it: the license
exists, its status is Active, and `now ≤ expiry` (inclusive boundary). -/
def admissionSpec (l : Option License) (now : Int) : Prop :=
  ∃ lic, l = some lic ∧ lic.status = "active" ∧ now ≤ lic.expiry_date

/-- The per-recipient actions of the trade fan-out, in registry
iteration order: a send for a working transport, a caught-and-logged
failure for a throwing one, nothing for an absent handle. -/
def deliverTrace (msg : WireMsg) :
    List (String × ReceiverEntry) → List Effect
  | [] => []
  | p :: rest =>
      (match p.2.ws with
       | some w =>
           if w.sendFails then [Effect.consoleError "Error sending to receiver"]
           else [Effect.wsSend p.1 msg]
       | none => []) ++ deliverTrace msg rest

theorem deliver_foldl_fst (msg : WireMsg) (rs : List (String × ReceiverEntry))
    (n : Nat) (effs : List Effect) :
    (rs.foldl (deliverStep msg) (n, effs)).1 = n + (rs.filter recvOk).length := by
  induction rs generalizing n effs with
  | nil => simp
  | cons p rest ih =>
      rcases p with ⟨id, e⟩
      rcases he : e.ws with _ | w
      · simp only [List.foldl_cons, deliverStep, he, List.filter_cons, recvOk]
        rw [ih]
        simp
      · by_cases hf : w.sendFails
        · simp only [List.foldl_cons, deliverStep, he, hf, if_true,
            List.filter_cons, recvOk]
          rw [ih]
          simp [hf]
        · simp only [List.foldl_cons, deliverStep, he, hf, if_false,
            List.filter_cons, recvOk]
          rw [ih]
          simp [hf, Nat.add_assoc, Nat.add_comm 1]

theorem deliver_foldl_snd (msg : WireMsg) (rs : List (String × ReceiverEntry))
    (n : Nat) (effs : List Effect) :
    (rs.foldl (deliverStep msg) (n, effs)).2 = effs ++ deliverTrace msg rs := by
  induction rs generalizing n effs with
  | nil => simp [deliverTrace]
  | cons p rest ih =>
      rcases p with ⟨id, e⟩
      rcases he : e.ws with _ | w
      · simp only [List.foldl_cons, deliverStep, he, deliverTrace]
        rw [ih]
        simp
      · by_cases hf : w.sendFails
        · simp only [List.foldl_cons, deliverStep, he, hf, if_true, deliverTrace]
          rw [ih]
          simp
        · simp only [List.foldl_cons, deliverStep, he, hf, if_false, deliverTrace]
          rw [ih]
          simp

theorem statusFanout_foldl (msg : WireMsg)
    (conns : List (String × Option Transport)) (acc : List Effect) :
    conns.foldl (fun a p => a ++ statusSend msg p) acc
      = acc ++ statusFanout msg conns := by
  induction conns generalizing acc with
  | nil => simp [statusFanout]
  | cons p rest ih =>
      simp only [List.foldl_cons, statusFanout]
      rw [ih, ih]
      simp

theorem statusFanout_cons (msg : WireMsg) (p : String × Option Transport)
    (rest : List (String × Option Transport)) :
    statusFanout msg (p :: rest) = statusSend msg p ++ statusFanout msg rest := by
  simp only [statusFanout, List.foldl_cons, List.nil_append]
  rw [statusFanout_foldl]
  rfl

theorem noClose_statusSend (msg : WireMsg) (p : String × Option Transport) :
    (statusSend msg p).any isClose = false := by
  rcases p with ⟨id, _ | w⟩
  · simp [statusSend]
  · by_cases hr : w.readyState = 1
    · by_cases hf : w.sendFails
      · simp [statusSend, hr, hf, isClose]
      · simp [statusSend, hr, hf, isClose]
    · simp [statusSend, hr]

theorem noClose_statusFanout (msg : WireMsg)
    (conns : List (String × Option Transport)) :
    (statusFanout msg conns).any isClose = false := by
  induction conns with
  | nil => simp [statusFanout]
  | cons p rest ih =>
      rw [statusFanout_cons]
      simp only [List.any_append, ih, Bool.or_false]
      exact noClose_statusSend msg p

theorem sendTargets_append (a b : List Effect) :
    sendTargets (a ++ b) = sendTargets a ++ sendTargets b := by
  simp [sendTargets]

theorem sendTargets_deliverTrace (msg : WireMsg)
    (rs : List (String × ReceiverEntry)) :
    sendTargets (deliverTrace msg rs) = (rs.filter recvOk).map Prod.fst := by
  induction rs with
  | nil => simp [deliverTrace, sendTargets]
  | cons p rest ih =>
      rcases p with ⟨id, e⟩
      rcases he : e.ws with _ | w
      · simp only [deliverTrace, he, List.nil_append, List.filter_cons, recvOk]
        rw [ih]
        simp
      · by_cases hf : w.sendFails
        · simp only [deliverTrace, he, hf, if_true, List.filter_cons, recvOk]
          rw [sendTargets_append, ih]
          simp [sendTargets, hf]
        · simp only [deliverTrace, he, hf, if_false, List.filter_cons, recvOk]
          rw [sendTargets_append, ih]
          simp [sendTargets, hf]

theorem errorLogCount_append (a b : List Effect) :
    errorLogCount (a ++ b) = errorLogCount a + errorLogCount b := by
  simp [errorLogCount]

theorem errorLogCount_deliverTrace (msg : WireMsg)
    (rs : List (String × ReceiverEntry)) :
    errorLogCount (deliverTrace msg rs) = (rs.filter recvFail).length := by
  induction rs with
  | nil => simp [deliverTrace, errorLogCount]
  | cons p rest ih =>
      rcases p with ⟨id, e⟩
      rcases he : e.ws with _ | w
      · simp only [deliverTrace, he, List.nil_append, List.filter_cons, recvFail]
        rw [ih]
        simp
      · by_cases hf : w.sendFails
        · simp only [deliverTrace, he, hf, if_true, List.filter_cons, recvFail]
          rw [errorLogCount_append, ih]
          simp [errorLogCount, hf, Nat.add_comm]
        · simp only [deliverTrace, he, hf, if_false, List.filter_cons, recvFail]
          rw [errorLogCount_append, ih]
          simp [errorLogCount, hf]

theorem noClose_deliverTrace (msg : WireMsg)
    (rs : List (String × ReceiverEntry)) :
    (deliverTrace msg rs).any isClose = false := by
  induction rs with
  | nil => simp [deliverTrace]
  | cons p rest ih =>
      rcases p with ⟨id, e⟩
      rcases he : e.ws with _ | w
      · simpa [deliverTrace, he] using ih
      · by_cases hf : w.sendFails
        · simp [deliverTrace, he, hf, isClose, ih]
        · simp [deliverTrace, he, hf, isClose, ih]

-- Association-list lemmas about the registry `Map` operations.

theorem mapGet_mapSet_self {α : Type} (m : List (String × α)) (k : String)
    (v : α) : mapGet (mapSet m k v) k = some v := by
  induction m with
  | nil => simp [mapSet, mapGet]
  | cons p rest ih =>
      by_cases h : p.1 = k
      · simp [mapSet, mapGet, h]
      · simp [mapSet, mapGet, h, ih]

theorem mapGet_mapSet_ne {α : Type} (m : List (String × α)) (k k' : String)
    (v : α) (h : k' ≠ k) : mapGet (mapSet m k v) k' = mapGet m k' := by
  have h2 : ¬ k = k' := fun hk => h hk.symm
  induction m with
  | nil => simp [mapSet, mapGet, h2]
  | cons p rest ih =>
      by_cases hp : p.1 = k
      · simp [mapSet, mapGet, hp, h2]
      · by_cases hp' : p.1 = k'
        · simp [mapSet, mapGet, hp, hp', h]
        · simp [mapSet, mapGet, hp, hp', ih]

theorem mapGet_eq_none_iff {α : Type} (m : List (String × α)) (k : String) :
    mapGet m k = none ↔ k ∉ m.map Prod.fst := by
  induction m with
  | nil => simp [mapGet]
  | cons p rest ih =>
      by_cases h : p.1 = k
      · simp [mapGet, h]
      · have h2 : ¬ k = p.1 := fun he => h he.symm
        simp [mapGet, h, ih, h2]

theorem keys_mapSet_of_has {α : Type} (m : List (String × α)) (k : String)
    (v : α) (h : mapHas m k = true) :
    (mapSet m k v).map Prod.fst = m.map Prod.fst := by
  induction m with
  | nil => simp [mapHas, mapGet] at h
  | cons p rest ih =>
      by_cases hp : p.1 = k
      · simp [mapSet, hp]
      · simp only [mapHas, mapGet, hp, if_false] at h
        simp [mapSet, hp, ih h, mapHas]

theorem keys_mapSet_of_not_has {α : Type} (m : List (String × α)) (k : String)
    (v : α) (h : mapHas m k = false) :
    (mapSet m k v).map Prod.fst = m.map Prod.fst ++ [k] := by
  induction m with
  | nil => simp [mapSet]
  | cons p rest ih =>
      by_cases hp : p.1 = k
      · simp [mapHas, mapGet, hp] at h
      · simp only [mapHas, mapGet, hp, if_false] at h
        simp [mapSet, hp, ih h, mapHas]

theorem nodup_keys_mapSet {α : Type} (m : List (String × α)) (k : String)
    (v : α) (h : (m.map Prod.fst).Nodup) :
    ((mapSet m k v).map Prod.fst).Nodup := by
  rcases hh : mapHas m k with _ | _
  · rw [keys_mapSet_of_not_has m k v hh]
    have hk : k ∉ m.map Prod.fst := by
      rw [← mapGet_eq_none_iff]
      rcases hmg : mapGet m k with _ | a
      · rfl
      · simp [mapHas, hmg] at hh
    simp [List.nodup_append, h, hk]
  · rw [keys_mapSet_of_has m k v hh]
    exact h

theorem keys_mapDelete_sublist {α : Type} (m : List (String × α))
    (k : String) :
    ((mapDelete m k).map Prod.fst).Sublist (m.map Prod.fst) := by
  induction m with
  | nil => simp [mapDelete]
  | cons p rest ih =>
      by_cases hp : p.1 = k
      · simp only [mapDelete, hp, if_true, List.map_cons]
        exact (List.Sublist.refl _).cons _
      · simp only [mapDelete, hp, if_false, List.map_cons]
        exact ih.cons₂ _

theorem nodup_keys_mapDelete {α : Type} (m : List (String × α)) (k : String)
    (h : (m.map Prod.fst).Nodup) :
    ((mapDelete m k).map Prod.fst).Nodup :=
  h.sublist (keys_mapDelete_sublist m k)

-- Sanity checks of the embedding on concrete values.
example : newActivationCount none = 1 := by decide
example : newActivationCount (some 0) = 1 := by decide
example : newActivationCount (some 1) = 1 := by decide
example : licenseRejected none 5 = true := by decide
example :
    licenseRejected (some ⟨"k", "u", "active", 100, none, some 0⟩) 100 = false := by
  decide
example :
    licenseRejected (some ⟨"k", "u", "active", 100, none, some 0⟩) 101 = true := by
  decide
example : verifyAPIKey (.vstr "0123456789ABCDEFG") = true := by decide
example : verifyAPIKey (.vstr "short") = false := by decide
example : verifyAPIKey .vundefined = false := by decide

example :
    (broadcastTradeSignal
      ⟨[], [("r1", ⟨some ⟨1, false⟩, .vstr "DEMO-1", 0, .vnum 1, "ip", none⟩)]⟩
      (some ⟨.vstr "EURUSD", .vstr "BUY", .vnum 1, .vnull, .vnull, .vstr "DEMO-1"⟩)
      7).sent = 1 := by decide

example :
    (broadcastTradeSignal
      ⟨[], [("r1", ⟨some ⟨1, false⟩, .vstr "DEMO-1", 0, .vnum 1, "ip", none⟩),
            ("r2", ⟨some ⟨1, true⟩, .vstr "DEMO-2", 0, .vnum 1, "ip", none⟩),
            ("r3", ⟨some ⟨1, false⟩, .vstr "DEMO-3", 0, .vnum 1, "ip", none⟩)]⟩
      (some ⟨.vstr "EURUSD", .vstr "BUY", .vnum 1, .vnull, .vnull, .vstr "DEMO-1"⟩)
      7).sent = 2 := by decide

-- Claim C3 -----------------------------------------------------------------

/-- C3: Receiver admission is a deterministic function of the license
record and the current time: a registration is rejected if the license
does not exist, or its status is not active, or `now > expiry`; it is
admitted otherwise — in particular a license with `expiry == now` (in
epoch seconds) is admitted (inclusive boundary). The same decision is
taken by the `/api/verify-license` endpoint. -/
theorem receiver_admission_deterministic
    (env : String → Option License) (id : String) (w : Transport)
    (lk rm : JsVal) (ip : String) (now : Int) (s : ServerState) :
    (licenseRejected (lookupLicense env lk) now = false
       ↔ admissionSpec (lookupLicense env lk) now)
    ∧ (admissionSpec (lookupLicense env lk) now →
        mapHas (registerReceiver env id w lk rm ip now s).1.receivers id = true
        ∧ (registerReceiver env id w lk rm ip now s).2.any isClose = false)
    ∧ (¬ admissionSpec (lookupLicense env lk) now →
        registerReceiver env id w lk rm ip now s
          = (s, [.wsClose id 1008 "Invalid or expired license",
                 .dbLog "warn" "Receiver rejected" none]))
    ∧ ((apiVerifyLicense env now lk).1.isOk = true
        ↔ lk.truthy = true ∧ admissionSpec (lookupLicense env lk) now)
    ∧ (∀ lic : License, lic.status = "active" →
        licenseRejected (some lic) lic.expiry_date = false) := by
  have hiff : licenseRejected (lookupLicense env lk) now = false
      ↔ admissionSpec (lookupLicense env lk) now := by
    rcases hl : lookupLicense env lk with _ | lic
    · simp [licenseRejected, admissionSpec]
    · constructor
      · intro hr
        simp only [licenseRejected, Bool.or_eq_false_iff, decide_eq_false_iff_not,
          not_not, not_lt] at hr
        exact ⟨lic, rfl, hr.1, hr.2⟩
      · rintro ⟨lic', hl', hst, hexp⟩
        obtain rfl : lic = lic' := by injection hl'
        simp [licenseRejected, hst, not_lt.mpr hexp]
  refine ⟨hiff, ?_, ?_, ?_, ?_⟩
  · intro hadm
    have hrej : licenseRejected (lookupLicense env lk) now = false := hiff.mpr hadm
    constructor
    · simp only [registerReceiver, hrej, Bool.false_eq_true, if_false]
      simp [mapHas, mapGet_mapSet_self]
    · simp only [registerReceiver, hrej, Bool.false_eq_true, if_false]
      simp [List.any_append, isClose, noClose_statusFanout, broadcastToMasters]
  · intro hadm
    have hrej : licenseRejected (lookupLicense env lk) now = true := by
      rcases hb : licenseRejected (lookupLicense env lk) now with _ | _
      · exact absurd (hiff.mp hb) hadm
      · rfl
    simp [registerReceiver, hrej]
  · by_cases ht : lk.truthy
    · rcases hl : lookupLicense env lk with _ | lic
      · constructor
        · intro hok
          simp [apiVerifyLicense, ht, hl, VerifyOutcome.isOk] at hok
        · rintro ⟨-, lic', hl', -, -⟩
          exact absurd hl' (by simp)
      · by_cases hst : lic.status = "active"
        · by_cases hexp : now > lic.expiry_date
          · constructor
            · intro hok
              have hred : apiVerifyLicense env now lk
                  = (.fail "License expired", []) := by
                simp [apiVerifyLicense, ht, hl, hst, hexp]
              rw [hred] at hok
              simp [VerifyOutcome.isOk] at hok
            · rintro ⟨-, lic', hl', -, hexp'⟩
              obtain rfl : lic = lic' := by injection hl'
              exact absurd hexp (not_lt.mpr hexp')
          · have hred : apiVerifyLicense env now lk
                = (.ok (lic.expiry_date * 1000) lic.user_email,
                   [.dbUpdateLicenseVerified lk,
                    .dbLog "info" "License verified" none]) := by
              simp [apiVerifyLicense, ht, hl, hst, hexp]
            rw [hred]
            simp only [VerifyOutcome.isOk]
            constructor
            · intro _
              exact ⟨ht, lic, rfl, hst, not_lt.mp hexp⟩
            · intro _
              trivial
        · constructor
          · intro hok
            have hred : apiVerifyLicense env now lk
                = (.fail "License inactive", []) := by
              simp [apiVerifyLicense, ht, hl, hst]
            rw [hred] at hok
            simp [VerifyOutcome.isOk] at hok
          · rintro ⟨-, lic', hl', hst', -⟩
            obtain rfl : lic = lic' := by injection hl'
            exact absurd hst' hst
    · constructor
      · intro hok
        have hred : apiVerifyLicense env now lk = (.badRequest, []) := by
          simp only [apiVerifyLicense]
          simp [ht]
        rw [hred] at hok
        simp [VerifyOutcome.isOk] at hok
      · rintro ⟨ht', -⟩
        exact absurd ht' ht
  · intro lic hst
    simp [licenseRejected, hst]

/-- Environment for the C3 witness: one active license `DEMO-1` whose
expiry is exactly second 1000. -/
def envC3 : String → Option License := fun k =>
  if k = "DEMO-1" then some ⟨"DEMO-1", "user", "active", 1000, none, some 0⟩
  else none

theorem receiver_admission_deterministic_witness :
    mapHas (registerReceiver envC3 "r1" ⟨1, false⟩ (.vstr "DEMO-1") .vundefined
      "ip" 1000 ⟨[], []⟩).1.receivers "r1" = true
    ∧ registerReceiver envC3 "r2" ⟨1, false⟩ (.vstr "BAD") .vundefined
        "ip" 1000 ⟨[], []⟩
      = (⟨[], []⟩, [.wsClose "r2" 1008 "Invalid or expired license",
                    .dbLog "warn" "Receiver rejected" none]) :=
  ⟨((receiver_admission_deterministic envC3 "r1" ⟨1, false⟩ (.vstr "DEMO-1")
      .vundefined "ip" 1000 ⟨[], []⟩).2.1
      ⟨⟨"DEMO-1", "user", "active", 1000, none, some 0⟩, rfl, rfl, by decide⟩).1,
   (receiver_admission_deterministic envC3 "r2" ⟨1, false⟩ (.vstr "BAD")
      .vundefined "ip" 1000 ⟨[], []⟩).2.2.1
      (by rintro ⟨lic, hl, -, -⟩; simp [lookupLicense, envC3] at hl)⟩

-- Claim C4 -----------------------------------------------------------------

theorem verifySeq_stable (ts : List Int) (l : License)
    (h : l.activation_count = some 1) :
    (verifySeq ts l).activation_count = some 1 := by
  induction ts generalizing l with
  | nil => simpa [verifySeq] using h
  | cons t ts ih =>
      have : (updateLicenseVerified t l).activation_count = some 1 := by
        simp [updateLicenseVerified, h, newActivationCount]
      simpa [verifySeq, List.foldl_cons] using ih _ this

/-- C4: for every license whose counter starts at its schema default
(0 or NULL), after any sequence of successful verification events
(`updateLicenseVerified` calls) the activation count is at most 1: the
first successful verification raises it to 1, and every repeated
verification of the already-activated license leaves it unchanged. -/
theorem activation_count_at_most_one (l : License) (ts : List Int)
    (h : l.activation_count = none ∨ l.activation_count = some 0) :
    (ts ≠ [] → (verifySeq ts l).activation_count = some 1)
    ∧ (∀ k, (verifySeq ts l).activation_count = some k → k ≤ 1)
    ∧ (∀ t (l' : License), l'.activation_count = some 1 →
        (updateLicenseVerified t l').activation_count = some 1) := by
  have hstep : ∀ t, (updateLicenseVerified t l).activation_count = some 1 := by
    intro t
    rcases h with h | h <;> simp [updateLicenseVerified, h, newActivationCount]
  have hstable : ∀ t (l' : License), l'.activation_count = some 1 →
      (updateLicenseVerified t l').activation_count = some 1 := by
    intro t l' h'
    simp [updateLicenseVerified, h', newActivationCount]
  rcases ts with _ | ⟨t, ts⟩
  · refine ⟨fun hne => absurd rfl hne, ?_, hstable⟩
    intro k hk
    have hk' : l.activation_count = some k := by simpa [verifySeq] using hk
    rcases h with h | h
    · rw [h] at hk'
      simp at hk'
    · rw [h] at hk'
      obtain rfl : (0 : Int) = k := by injection hk'
      omega
  · have hone : (verifySeq (t :: ts) l).activation_count = some 1 := by
      have : verifySeq (t :: ts) l = verifySeq ts (updateLicenseVerified t l) := by
        simp [verifySeq]
      rw [this]
      exact verifySeq_stable ts _ (hstep t)
    refine ⟨fun _ => hone, ?_, hstable⟩
    intro k hk
    rw [hone] at hk
    injection hk with hk
    omega

/-- License for the C4 witness: fresh row, counter at the default 0. -/
def licC4 : License := ⟨"SP-1", "user", "active", 5000, none, some 0⟩

theorem activation_count_at_most_one_witness :
    (verifySeq [10, 20, 30] licC4).activation_count = some 1 :=
  (activation_count_at_most_one licC4 [10, 20, 30] (Or.inr rfl)).1 (by decide)

-- Claim C5 -----------------------------------------------------------------

theorem rowStale_iff (c : Int) (r : ConnRow) :
    rowStale c r = true
      ↔ r.status = "active" ∧ ∃ p, r.last_ping = some p ∧ p < c := by
  rcases hp : r.last_ping with _ | p
  · simp [rowStale, hp]
  · simp only [rowStale, hp, Bool.and_eq_true, decide_eq_true_eq]
    constructor
    · rintro ⟨h1, h2⟩
      exact ⟨h2, p, rfl, h1⟩
    · rintro ⟨h2, p', hp', h1⟩
      obtain rfl : p = p' := by injection hp'
      exact ⟨h1, h2⟩

/-- Registry and connections-table rows for the C5 counterexample: one
receiver whose last liveness signal is ancient. -/
def c5State : ServerState :=
  ⟨[], [("r1", ⟨some ⟨1, false⟩, .vstr "L", 0, .vnum 1, "ip", some 0⟩)]⟩

def c5Tbl : List ConnRow := [⟨"r1", "receiver", .vstr "L", some 0, "active"⟩]

/-- C5 counterexample: at sweep time 100000 the session `r1` with
`lastSeenAt = 0` is far beyond the 300-second timeout, yet the sweep
leaves it in the in-memory Registry, and its persistence row is deleted
outright rather than marked disconnected — refuting both the "removes
from the Registry" and the "marks the record as disconnected" parts of
the claim. -/
theorem reaper_claim_counterexample :
    mapHas (periodicCleanup 100000 c5State c5Tbl).1.receivers "r1" = true
    ∧ (periodicCleanup 100000 c5State c5Tbl).2.1 = [] := by
  decide

/-- C5 amended: a sweep at time `now` leaves the in-memory Registry
untouched; on the persistence side it deletes exactly those connection
rows with status 'active' and `now − last_ping > 300` (strictly), so a
row whose last ping is within the timeout — e.g. 299 seconds old — is
kept. -/
theorem reaper_deletes_stale_rows (now : Int) (s : ServerState)
    (tbl : List ConnRow) :
    (periodicCleanup now s tbl).1 = s
    ∧ ∀ r : ConnRow,
        r ∈ (periodicCleanup now s tbl).2.1
          ↔ r ∈ tbl
            ∧ ¬(r.status = "active" ∧ ∃ p, r.last_ping = some p ∧ now - p > 300) := by
  constructor
  · rfl
  · intro r
    simp only [periodicCleanup, List.mem_filter, Bool.not_eq_true']
    constructor
    · rintro ⟨hr, hstale⟩
      refine ⟨hr, ?_⟩
      rintro ⟨hst, p, hp, hgt⟩
      have : rowStale (now - 300) r = true :=
        (rowStale_iff _ r).mpr ⟨hst, p, hp, by omega⟩
      rw [this] at hstale
      cases hstale
    · rintro ⟨hr, hspec⟩
      refine ⟨hr, ?_⟩
      rcases hb : rowStale (now - 300) r with _ | _
      · rfl
      · rcases (rowStale_iff _ r).mp hb with ⟨hst, p, hp, hlt⟩
        exact absurd ⟨hst, p, hp, by omega⟩ hspec

/-- Row for the C5 witness: pinged 299 seconds before the sweep. -/
def c5FreshRow : ConnRow := ⟨"r2", "receiver", .vstr "L", some 701, "active"⟩

theorem reaper_deletes_stale_rows_witness :
    c5FreshRow ∈ (periodicCleanup 1000 ⟨[], []⟩ [c5FreshRow]).2.1 :=
  ((reaper_deletes_stale_rows 1000 ⟨[], []⟩ [c5FreshRow]).2 c5FreshRow).mpr
    ⟨by simp, by
      rintro ⟨-, p, hp, hgt⟩
      obtain rfl : (701 : Int) = p := by injection hp
      omega⟩

-- Claim C6 -----------------------------------------------------------------

/-- C6 counterexample: a master registration with an invalid API key is
closed with code 1008, but the effect trace contains no log of any kind
(neither console nor database), refuting the claim's "the rejection is
logged" for the master path. -/
theorem master_rejection_unlogged :
    (registerMaster "m1" ⟨1, false⟩ (.vstr "short") "ip" 0 ⟨[], []⟩).2
      = [.wsClose "m1" 1008 "Invalid API key"]
    ∧ ((registerMaster "m1" ⟨1, false⟩ (.vstr "short") "ip" 0 ⟨[], []⟩).2.any
        isLogEffect) = false := by
  decide

/-- C6 amended: every registration whose credential fails admission
closes the transport with policy-violation code 1008 and a
human-readable reason, adds no Session to either partition, performs no
persistence add-connection, and produces no other effect — so receiver
rejections are logged (the warn entry in their effect list) while
master rejections are not logged at all. -/
theorem rejected_admission_closes_without_session :
    (∀ (id : String) (w : Transport) (k : JsVal) (ip : String) (now : Int)
        (s : ServerState), verifyAPIKey k = false →
        registerMaster id w k ip now s
          = (s, [.wsClose id 1008 "Invalid API key"]))
    ∧ (∀ (env : String → Option License) (id : String) (w : Transport)
        (lk rm : JsVal) (ip : String) (now : Int) (s : ServerState),
        licenseRejected (lookupLicense env lk) now = true →
        registerReceiver env id w lk rm ip now s
          = (s, [.wsClose id 1008 "Invalid or expired license",
                 .dbLog "warn" "Receiver rejected" none])) := by
  constructor
  · intro id w k ip now s hk
    simp [registerMaster, hk]
  · intro env id w lk rm ip now s hr
    simp [registerReceiver, hr]

/-- Empty license environment for the C6 witness. -/
def envC6 : String → Option License := fun _ => none

theorem rejected_admission_closes_without_session_witness :
    registerMaster "m1" ⟨1, false⟩ .vundefined "ip" 0 ⟨[], []⟩
      = (⟨[], []⟩, [.wsClose "m1" 1008 "Invalid API key"])
    ∧ registerReceiver envC6 "r1" ⟨1, false⟩ (.vstr "GONE") .vundefined "ip" 0
        ⟨[], []⟩
      = (⟨[], []⟩, [.wsClose "r1" 1008 "Invalid or expired license",
                    .dbLog "warn" "Receiver rejected" none]) :=
  ⟨rejected_admission_closes_without_session.1 "m1" ⟨1, false⟩ .vundefined "ip" 0
      ⟨[], []⟩ (by decide),
   rejected_admission_closes_without_session.2 envC6 "r1" ⟨1, false⟩
      (.vstr "GONE") .vundefined "ip" 0 ⟨[], []⟩ (by decide)⟩

-- Claim C10 ----------------------------------------------------------------

/-- C10: handling a liveness ping updates only the pinged connection's
last-seen data: the persistence effect is exactly the `last_ping`
update for that id, both partitions keep exactly their keys, every
other id's entry is untouched, the pinged id's entry changes only in
its `lastPing` field, and a ping whose connection id is in neither
partition leaves the Registry entirely unchanged. -/
theorem ping_frame_effect (id : String) (now : Int) (s : ServerState) :
    (handlePing id now s).2 = [.dbUpdateConnectionPing id]
    ∧ (handlePing id now s).1.masters.map Prod.fst = s.masters.map Prod.fst
    ∧ (handlePing id now s).1.receivers.map Prod.fst = s.receivers.map Prod.fst
    ∧ (∀ k, k ≠ id →
        mapGet (handlePing id now s).1.masters k = mapGet s.masters k
        ∧ mapGet (handlePing id now s).1.receivers k = mapGet s.receivers k)
    ∧ (∀ m, mapGet s.masters id = some m →
        mapGet (handlePing id now s).1.masters id
          = some { m with lastPing := some now })
    ∧ (∀ r, mapGet s.receivers id = some r →
        mapGet (handlePing id now s).1.receivers id
          = some { r with lastPing := some now })
    ∧ (mapGet s.masters id = none → mapGet s.receivers id = none →
        (handlePing id now s).1 = s) := by
  refine ⟨rfl, ?_, ?_, ?_, ?_, ?_, ?_⟩
  · rcases hm : mapGet s.masters id with _ | m
    · simp [handlePing, hm]
    · simp only [handlePing, hm]
      exact keys_mapSet_of_has _ _ _ (by simp [mapHas, hm])
  · rcases hr : mapGet s.receivers id with _ | r
    · simp [handlePing, hr]
    · simp only [handlePing, hr]
      exact keys_mapSet_of_has _ _ _ (by simp [mapHas, hr])
  · intro k hk
    constructor
    · rcases hm : mapGet s.masters id with _ | m
      · simp [handlePing, hm]
      · simp only [handlePing, hm]
        exact mapGet_mapSet_ne _ _ _ _ hk
    · rcases hr : mapGet s.receivers id with _ | r
      · simp [handlePing, hr]
      · simp only [handlePing, hr]
        exact mapGet_mapSet_ne _ _ _ _ hk
  · intro m hm
    simp only [handlePing, hm]
    exact mapGet_mapSet_self _ _ _
  · intro r hr
    simp only [handlePing, hr]
    exact mapGet_mapSet_self _ _ _
  · intro hm hr
    simp [handlePing, hm, hr]

/-- Registry for the C10 witness: one master and one receiver. -/
def c10State : ServerState :=
  ⟨[("m1", ⟨some ⟨1, false⟩, .vstr "0123456789ABCDEFG", 0, 0, "ip", none⟩)],
   [("r1", ⟨some ⟨1, false⟩, .vstr "L", 0, .vnum 1, "ip", none⟩)]⟩

theorem ping_frame_effect_witness :
    (handlePing "m1" 5 c10State).2 = [.dbUpdateConnectionPing "m1"]
    ∧ mapGet (handlePing "m1" 5 c10State).1.masters "m1"
        = some ⟨some ⟨1, false⟩, .vstr "0123456789ABCDEFG", 0, 0, "ip", some 5⟩
    ∧ mapGet (handlePing "m1" 5 c10State).1.receivers "r1"
        = mapGet c10State.receivers "r1"
    ∧ (handlePing "ghost" 5 c10State).1 = c10State :=
  ⟨(ping_frame_effect "m1" 5 c10State).1,
   (ping_frame_effect "m1" 5 c10State).2.2.2.2.1 _ rfl,
   ((ping_frame_effect "m1" 5 c10State).2.2.2.1 "r1" (by decide)).2,
   (ping_frame_effect "ghost" 5 c10State).2.2.2.2.2.2 rfl rfl⟩

-- Claim C1 -----------------------------------------------------------------

theorem broadcastTradeSignal_some (s : ServerState) (t : Trade) (now : Int) :
    broadcastTradeSignal s (some t) now
      = { effects :=
            [.consoleLog "Broadcasting trade signal",
             .dbLogTrade (t.licenseKey.jsOr (.vstr "master"))
               (t.symbol.jsOr (.vstr "UNKNOWN")) (t.action.jsOr (.vstr "UNKNOWN"))
               (t.volume.jsOr (.vnum 0)) (t.sl.jsOr .vnull) (t.tp.jsOr .vnull)]
            ++ deliverTrace (WireMsg.tradeSignal t now) s.receivers
            ++ [.consoleLog "Signal sent",
                .dbLog "info" "Trade signal broadcasted"
                  (some (s.receivers.filter recvOk).length)],
          sent := (s.receivers.filter recvOk).length,
          ret := none } := by
  simp only [broadcastTradeSignal]
  rw [deliver_foldl_snd, deliver_foldl_fst]
  simp

/-- Registry and trade for the C1 counterexample: one receiver with a
working transport. -/
def c1State : ServerState :=
  ⟨[], [("r1", ⟨some ⟨1, false⟩, .vstr "DEMO-1", 0, .vnum 1, "ip", none⟩)]⟩

def c1Trade : Trade :=
  ⟨.vstr "EURUSD", .vstr "BUY", .vnum 1, .vnull, .vnull, .vstr "DEMO-1"⟩

/-- C1 counterexample: on a registry with one deliverable receiver the
fan-out hands the message to 1 session, but `broadcastTradeSignal` has
no return statement, so its return value is `undefined` rather than the
delivery count — refuting "it returns the count of sessions the message
was successfully handed to the transport for". -/
theorem broadcast_returns_no_count :
    (broadcastTradeSignal c1State (some c1Trade) 1000).sent = 1
    ∧ ¬((broadcastTradeSignal c1State (some c1Trade) 1000).ret
        = some ((broadcastTradeSignal c1State (some c1Trade) 1000).sent)) := by
  decide

/-- C1 amended: for a well-formed trade signal and any registry whose
receiver entries all hold a working transport, the broadcast hands the
trade-signal message to exactly the sessions of the receiver partition
at invocation time (none skipped, no other session targeted), and the
delivery count is computed and recorded in the final broadcast log
entry — but the function itself returns no value (`undefined`), so the
count reaches no caller. -/
theorem broadcast_targets_exact_receivers (s : ServerState) (t : Trade)
    (now : Int)
    (h : ∀ p ∈ s.receivers, ∃ w, p.2.ws = some w ∧ w.sendFails = false) :
    sendTargets (broadcastTradeSignal s (some t) now).effects
      = s.receivers.map Prod.fst
    ∧ (broadcastTradeSignal s (some t) now).sent = s.receivers.length
    ∧ (broadcastTradeSignal s (some t) now).ret = none
    ∧ (broadcastTradeSignal s (some t) now).effects.getLast?
        = some (.dbLog "info" "Trade signal broadcasted"
                 (some ((broadcastTradeSignal s (some t) now).sent))) := by
  have hfilter : s.receivers.filter recvOk = s.receivers := by
    rw [List.filter_eq_self]
    intro p hp
    rcases h p hp with ⟨w, hw, hf⟩
    simp [recvOk, hw, hf]
  rw [broadcastTradeSignal_some]
  refine ⟨?_, ?_, rfl, ?_⟩
  · simp only [sendTargets_append]
    rw [show sendTargets (deliverTrace (WireMsg.tradeSignal t now) s.receivers)
          = (s.receivers.filter recvOk).map Prod.fst from
        sendTargets_deliverTrace _ _]
    simp [sendTargets, hfilter]
  · simp [hfilter]
  · rw [show
        [Effect.consoleLog "Broadcasting trade signal",
         .dbLogTrade (t.licenseKey.jsOr (.vstr "master"))
           (t.symbol.jsOr (.vstr "UNKNOWN")) (t.action.jsOr (.vstr "UNKNOWN"))
           (t.volume.jsOr (.vnum 0)) (t.sl.jsOr .vnull) (t.tp.jsOr .vnull)]
        ++ deliverTrace (WireMsg.tradeSignal t now) s.receivers
        ++ [.consoleLog "Signal sent",
            .dbLog "info" "Trade signal broadcasted"
              (some (s.receivers.filter recvOk).length)]
        = ([Effect.consoleLog "Broadcasting trade signal",
            .dbLogTrade (t.licenseKey.jsOr (.vstr "master"))
              (t.symbol.jsOr (.vstr "UNKNOWN")) (t.action.jsOr (.vstr "UNKNOWN"))
              (t.volume.jsOr (.vnum 0)) (t.sl.jsOr .vnull) (t.tp.jsOr .vnull)]
           ++ deliverTrace (WireMsg.tradeSignal t now) s.receivers
           ++ [.consoleLog "Signal sent"])
          ++ [.dbLog "info" "Trade signal broadcasted"
                (some (s.receivers.filter recvOk).length)] from by simp]
    rw [List.getLast?_concat]

/-- Registry and trade for the C1 witness: two receivers, both
deliverable. -/
def c1WState : ServerState :=
  ⟨[], [("r1", ⟨some ⟨1, false⟩, .vstr "DEMO-1", 0, .vnum 1, "ip", none⟩),
        ("r2", ⟨some ⟨1, false⟩, .vstr "DEMO-2", 0, .vnum 1, "ip", none⟩)]⟩

theorem broadcast_targets_exact_receivers_witness :
    sendTargets (broadcastTradeSignal c1WState (some c1Trade) 1000).effects
      = ["r1", "r2"]
    ∧ (broadcastTradeSignal c1WState (some c1Trade) 1000).ret = none :=
  ⟨Eq.trans
    (broadcast_targets_exact_receivers c1WState c1Trade 1000 (by decide)).1
    (by decide),
   (broadcast_targets_exact_receivers c1WState c1Trade 1000 (by decide)).2.2.1⟩

-- Claim C2 -----------------------------------------------------------------

theorem eq_of_keys_nodup {α : Type} {l : List (String × α)}
    (h : (l.map Prod.fst).Nodup) {p q : String × α} (hp : p ∈ l) (hq : q ∈ l)
    (hk : p.1 = q.1) : p = q := by
  induction l with
  | nil => cases hp
  | cons a rest ih =>
      simp only [List.map_cons, List.nodup_cons] at h
      rcases List.mem_cons.mp hp with rfl | hp'
      · rcases List.mem_cons.mp hq with rfl | hq'
        · rfl
        · exact absurd (hk ▸ List.mem_map_of_mem Prod.fst hq') h.1
      · rcases List.mem_cons.mp hq with rfl | hq'
        · exact absurd (hk ▸ List.mem_map_of_mem Prod.fst hp') h.1
        · exact ih h.2 hp' hq'

/-- C2: during a single broadcast fan-out, a recipient whose transport
send throws is caught and logged (one caught-failure log per failing
recipient), every other recipient in the snapshot is still handed the
message, the failing recipient is not counted in the delivery count and
receives no send, and the broadcast still runs to completion, ending
with its summary log entry — no exception escapes the relay. -/
theorem fanout_isolates_failures (s : ServerState) (t : Trade) (now : Int)
    (hnd : (s.receivers.map Prod.fst).Nodup) :
    (broadcastTradeSignal s (some t) now).sent
      = (s.receivers.filter recvOk).length
    ∧ sendTargets (broadcastTradeSignal s (some t) now).effects
      = (s.receivers.filter recvOk).map Prod.fst
    ∧ errorLogCount (broadcastTradeSignal s (some t) now).effects
      = (s.receivers.filter recvFail).length
    ∧ (∀ p ∈ s.receivers, recvFail p = true →
        p.1 ∉ sendTargets (broadcastTradeSignal s (some t) now).effects)
    ∧ (broadcastTradeSignal s (some t) now).effects.getLast?
        = some (.dbLog "info" "Trade signal broadcasted"
                 (some ((broadcastTradeSignal s (some t) now).sent))) := by
  have htargets : sendTargets (broadcastTradeSignal s (some t) now).effects
      = (s.receivers.filter recvOk).map Prod.fst := by
    rw [broadcastTradeSignal_some]
    simp only [sendTargets_append]
    rw [show sendTargets (deliverTrace (WireMsg.tradeSignal t now) s.receivers)
          = (s.receivers.filter recvOk).map Prod.fst from
        sendTargets_deliverTrace _ _]
    simp [sendTargets]
  refine ⟨by rw [broadcastTradeSignal_some], htargets, ?_, ?_, ?_⟩
  · rw [broadcastTradeSignal_some]
    simp only [errorLogCount_append]
    rw [show errorLogCount (deliverTrace (WireMsg.tradeSignal t now) s.receivers)
          = (s.receivers.filter recvFail).length from
        errorLogCount_deliverTrace _ _]
    simp [errorLogCount]
  · intro p hp hfail hmem
    rw [htargets] at hmem
    rcases List.mem_map.mp hmem with ⟨q, hq, hqk⟩
    rcases List.mem_filter.mp hq with ⟨hq', hqok⟩
    obtain rfl : q = p := eq_of_keys_nodup hnd hq' hp hqk
    rcases hws : q.2.ws with _ | w
    · simp [recvOk, hws] at hqok
    · simp only [recvOk, recvFail, hws] at hqok hfail
      rw [hfail] at hqok
      cases hqok
  · rw [broadcastTradeSignal_some]
    rw [show
        [Effect.consoleLog "Broadcasting trade signal",
         .dbLogTrade (t.licenseKey.jsOr (.vstr "master"))
           (t.symbol.jsOr (.vstr "UNKNOWN")) (t.action.jsOr (.vstr "UNKNOWN"))
           (t.volume.jsOr (.vnum 0)) (t.sl.jsOr .vnull) (t.tp.jsOr .vnull)]
        ++ deliverTrace (WireMsg.tradeSignal t now) s.receivers
        ++ [.consoleLog "Signal sent",
            .dbLog "info" "Trade signal broadcasted"
              (some (s.receivers.filter recvOk).length)]
        = ([Effect.consoleLog "Broadcasting trade signal",
            .dbLogTrade (t.licenseKey.jsOr (.vstr "master"))
              (t.symbol.jsOr (.vstr "UNKNOWN")) (t.action.jsOr (.vstr "UNKNOWN"))
              (t.volume.jsOr (.vnum 0)) (t.sl.jsOr .vnull) (t.tp.jsOr .vnull)]
           ++ deliverTrace (WireMsg.tradeSignal t now) s.receivers
           ++ [.consoleLog "Signal sent"])
          ++ [.dbLog "info" "Trade signal broadcasted"
                (some (s.receivers.filter recvOk).length)] from by simp]
    rw [List.getLast?_concat]

/-- Registry for the C2 witness: three receivers, the middle one's
transport throws on send. -/
def c2State : ServerState :=
  ⟨[], [("r1", ⟨some ⟨1, false⟩, .vstr "L1", 0, .vnum 1, "ip", none⟩),
        ("r2", ⟨some ⟨1, true⟩, .vstr "L2", 0, .vnum 1, "ip", none⟩),
        ("r3", ⟨some ⟨1, false⟩, .vstr "L3", 0, .vnum 1, "ip", none⟩)]⟩

def c2Trade : Trade :=
  ⟨.vstr "EURUSD", .vstr "SELL", .vnum 2, .vnull, .vnull, .vstr "L1"⟩

theorem fanout_isolates_failures_witness :
    (broadcastTradeSignal c2State (some c2Trade) 9).sent = 2
    ∧ "r2" ∉ sendTargets (broadcastTradeSignal c2State (some c2Trade) 9).effects :=
  ⟨Eq.trans (fanout_isolates_failures c2State c2Trade 9 (by decide)).1 (by decide),
   (fanout_isolates_failures c2State c2Trade 9 (by decide)).2.2.2.1
     ("r2", ⟨some ⟨1, true⟩, .vstr "L2", 0, .vnum 1, "ip", none⟩)
     (by decide) (by decide)⟩

-- Claim C8 -----------------------------------------------------------------

/-- Registry and environment for the C8 counterexample. -/
def c8State : ServerState :=
  ⟨[], [("r1", ⟨some ⟨1, false⟩, .vstr "DEMO-1", 0, .vnum 1, "ip", none⟩)]⟩

def envC8 : String → Option License := fun _ => none

def c8Trade : Trade :=
  ⟨.vstr "EURUSD", .vstr "BUY", .vnum 1, .vnull, .vnull, .vstr "DEMO-1"⟩

/-- C8 counterexample: for the same well-formed trade and registry, the
HTTP `/api/send-trade` path writes two durable trade records (its own
direct `logTrade` plus the one inside `broadcastTradeSignal`), while
the transport-native trade-signal path writes exactly one — refuting
"the same durable trade records are written". -/
theorem http_trade_double_persisted :
    ¬ (tradeRecords (apiSendTrade c8State 9 (.vstr "EURUSD") (.vstr "BUY")
          (.vnum 1) .vnull .vnull (.vstr "DEMO-1")).2
        = tradeRecords (handleMessage envC8 "c1" ⟨1, false⟩ "ip" 9 c8State
            (.msg (.tradeSignal (some c8Trade)))).2)
    ∧ (tradeRecords (apiSendTrade c8State 9 (.vstr "EURUSD") (.vstr "BUY")
          (.vnum 1) .vnull .vnull (.vstr "DEMO-1")).2).length = 2
    ∧ (tradeRecords (handleMessage envC8 "c1" ⟨1, false⟩ "ip" 9 c8State
          (.msg (.tradeSignal (some c8Trade)))).2).length = 1 := by
  decide

/-- C8 amended: for every well-formed trade the request/response
send-trade endpoint and the transport-native trade-signal message
produce the identical broadcast behavior (the same wsSend effects to
the same receivers, both leaving the registry unchanged), but the HTTP
path persists one additional trade record — its direct `logTrade` with
fallback key 'http-client' — ahead of the single record the broadcast
itself writes. -/
theorem http_ws_trade_equivalence (s : ServerState) (now : Int)
    (symbol action volume sl tp licenseKey : JsVal)
    (env : String → Option License) (c : String) (w : Transport) (ip : String)
    (h1 : symbol.truthy = true) (h2 : action.truthy = true)
    (h3 : volume.truthy = true) :
    wsSendEffects (apiSendTrade s now symbol action volume sl tp licenseKey).2
      = wsSendEffects (handleMessage env c w ip now s
          (.msg (.tradeSignal (some ⟨symbol, action, volume, sl, tp,
            licenseKey⟩)))).2
    ∧ tradeRecords (apiSendTrade s now symbol action volume sl tp licenseKey).2
      = Effect.dbLogTrade (licenseKey.jsOr (.vstr "http-client"))
          symbol action volume sl tp
        :: tradeRecords (handleMessage env c w ip now s
             (.msg (.tradeSignal (some ⟨symbol, action, volume, sl, tp,
               licenseKey⟩)))).2
    ∧ (handleMessage env c w ip now s
        (.msg (.tradeSignal (some ⟨symbol, action, volume, sl, tp,
          licenseKey⟩)))).1 = s := by
  have hcond : (symbol.truthy && action.truthy && volume.truthy) = true := by
    simp [h1, h2, h3]
  have hhttp : (apiSendTrade s now symbol action volume sl tp licenseKey).2
      = Effect.dbLogTrade (licenseKey.jsOr (.vstr "http-client"))
          symbol action volume sl tp
        :: (broadcastTradeSignal s
             (some ⟨symbol, action, volume, sl, tp, licenseKey⟩) now).effects := by
    simp [apiSendTrade, hcond]
  have hws : (handleMessage env c w ip now s
      (.msg (.tradeSignal (some ⟨symbol, action, volume, sl, tp,
        licenseKey⟩)))).2
      = (broadcastTradeSignal s
          (some ⟨symbol, action, volume, sl, tp, licenseKey⟩) now).effects := by
    simp [handleMessage]
  refine ⟨?_, ?_, by simp [handleMessage]⟩
  · rw [hhttp, hws]
    simp [wsSendEffects]
  · rw [hhttp, hws]
    simp [tradeRecords]

theorem http_ws_trade_equivalence_witness :
    wsSendEffects (apiSendTrade c8State 9 (.vstr "EURUSD") (.vstr "BUY")
        (.vnum 1) .vnull .vnull (.vstr "DEMO-1")).2
      = wsSendEffects (handleMessage envC8 "c1" ⟨1, false⟩ "ip" 9 c8State
          (.msg (.tradeSignal (some ⟨.vstr "EURUSD", .vstr "BUY", .vnum 1,
            .vnull, .vnull, .vstr "DEMO-1"⟩)))).2 :=
  (http_ws_trade_equivalence c8State 9 (.vstr "EURUSD") (.vstr "BUY")
    (.vnum 1) .vnull .vnull (.vstr "DEMO-1") envC8 "c1" ⟨1, false⟩ "ip"
    (by decide) (by decide) (by decide)).1

-- Claim C9 -----------------------------------------------------------------

def envC9 : String → Option License := fun _ => none

/-- C9 counterexample: a trade-signal message whose required `trade`
field is missing is a malformed payload, yet the dispatch drops it with
an empty effect trace — no log entry of any kind — refuting "a
malformed payload ... is dropped with a log entry". -/
theorem missing_trade_dropped_silently :
    handleMessage envC9 "c1" ⟨1, false⟩ "ip" 0 ⟨[], []⟩
        (.msg (.tradeSignal none))
      = (⟨[], []⟩, [])
    ∧ ((handleMessage envC9 "c1" ⟨1, false⟩ "ip" 0 ⟨[], []⟩
        (.msg (.tradeSignal none))).2.any isLogEffect) = false := by
  decide

/-- C9 amended: the dispatch loop is total and never closes the session
except through the two register paths: an unknown message type is
logged (console) and dropped with the registry unchanged and the
session open; an unparseable payload is caught and logged; a non-object
payload is logged and dropped; and for every non-register inbound frame
no transport close is emitted — but a trade-signal message missing its
trade object is dropped silently, with no log entry. -/
theorem dispatch_total_and_safe (env : String → Option License) (c : String)
    (w : Transport) (ip : String) (now : Int) (s : ServerState) :
    (∀ ty, handleMessage env c w ip now s (.msg (.unknown ty))
        = (s, [.consoleLog ("Unknown message type: " ++ ty)]))
    ∧ handleMessage env c w ip now s .parseFail
        = (s, [.consoleError "Error handling message",
               .dbLog "error" "WebSocket message error" none])
    ∧ handleMessage env c w ip now s .nonObject
        = (s, [.consoleLog "Invalid message format from client"])
    ∧ handleMessage env c w ip now s (.msg (.tradeSignal none)) = (s, [])
    ∧ (∀ raw, isRegisterMsg raw = false →
        ((handleMessage env c w ip now s raw).2.any isClose) = false) := by
  refine ⟨fun ty => rfl, rfl, rfl, rfl, ?_⟩
  intro raw hreg
  rcases raw with _ | _ | m
  · simp [handleMessage, isClose]
  · simp [handleMessage, isClose]
  · rcases m with k | ⟨lk, rm⟩ | t | _ | ty
    · simp [isRegisterMsg] at hreg
    · simp [isRegisterMsg] at hreg
    · rcases t with _ | tr
      · simp [handleMessage]
      · simp only [handleMessage]
        rw [broadcastTradeSignal_some]
        simp only [List.any_append, List.any_cons, List.any_nil]
        rw [noClose_deliverTrace]
        simp [isClose]
    · by_cases hf : w.sendFails
      · simp [handleMessage, hf, handlePing, isClose]
      · simp [handleMessage, hf, handlePing, isClose]
    · simp [handleMessage, isClose]

theorem dispatch_total_and_safe_witness :
    ((handleMessage envC9 "c1" ⟨1, false⟩ "ip" 0 ⟨[], []⟩
        (.msg .ping)).2.any isClose) = false :=
  (dispatch_total_and_safe envC9 "c1" ⟨1, false⟩ "ip" 0 ⟨[], []⟩).2.2.2.2
    (.msg .ping) (by decide)

-- Claim C7 -----------------------------------------------------------------

theorem registerMaster_fst (id : String) (w : Transport) (k : JsVal)
    (ip : String) (now : Int) (s : ServerState) :
    (registerMaster id w k ip now s).1
      = if verifyAPIKey k then
          { s with masters :=
              mapSet s.masters id ⟨some w, k, now, 0, ip, none⟩ }
        else s := by
  by_cases hk : verifyAPIKey k <;> simp [registerMaster, hk]

theorem registerReceiver_fst (env : String → Option License) (id : String)
    (w : Transport) (lk rm : JsVal) (ip : String) (now : Int)
    (s : ServerState) :
    (registerReceiver env id w lk rm ip now s).1
      = if licenseRejected (lookupLicense env lk) now then s
        else
          { s with receivers :=
              mapSet s.receivers id ⟨some w, lk, now, rm.jsOr (.vnum 1), ip, none⟩ } := by
  by_cases hr : licenseRejected (lookupLicense env lk) now <;>
    simp [registerReceiver, hr]

theorem unregisterMaster_fst (id : String) (s : ServerState) :
    (unregisterMaster id s).1
      = if mapHas s.masters id then
          { s with masters := mapDelete s.masters id }
        else s := by
  by_cases h : mapHas s.masters id <;> simp [unregisterMaster, h]

theorem unregisterReceiver_fst (id : String) (s : ServerState) :
    (unregisterReceiver id s).1
      = if mapHas s.receivers id then
          { s with receivers := mapDelete s.receivers id }
        else s := by
  by_cases h : mapHas s.receivers id <;> simp [unregisterReceiver, h]

theorem handlePing_masters_keys (id : String) (now : Int) (s : ServerState) :
    (handlePing id now s).1.masters.map Prod.fst = s.masters.map Prod.fst := by
  rcases hm : mapGet s.masters id with _ | m
  · simp [handlePing, hm]
  · simp only [handlePing, hm]
    exact keys_mapSet_of_has _ _ _ (by simp [mapHas, hm])

theorem handlePing_receivers_keys (id : String) (now : Int) (s : ServerState) :
    (handlePing id now s).1.receivers.map Prod.fst
      = s.receivers.map Prod.fst := by
  rcases hr : mapGet s.receivers id with _ | r
  · simp [handlePing, hr]
  · simp only [handlePing, hr]
    exact keys_mapSet_of_has _ _ _ (by simp [mapHas, hr])

/-- C7 amended, invariant part: in every reachable registry state each
partition holds at most one entry per sessionId (its key list has no
duplicates). Cross-partition exclusivity, however, does not hold — see
the dual-registration counterexample. -/
theorem partition_keys_unique (env : String → Option License)
    (s : ServerState) (h : Reachable env s) :
    (s.masters.map Prod.fst).Nodup ∧ (s.receivers.map Prod.fst).Nodup := by
  induction h with
  | init => constructor <;> simp
  | @step s' hs ev ih =>
      rcases ev with ⟨c, w, ip, raw, now⟩ | c
      · rcases raw with _ | _ | m
        · simpa [stepServer, handleMessage] using ih
        · simpa [stepServer, handleMessage] using ih
        · rcases m with k | ⟨lk, rm⟩ | t | _ | ty
          · simp only [stepServer, handleMessage]
            rw [registerMaster_fst]
            by_cases hk : verifyAPIKey k
            · simp only [hk, if_true]
              exact ⟨nodup_keys_mapSet _ _ _ ih.1, ih.2⟩
            · simp only [hk, Bool.false_eq_true, if_false]
              exact ih
          · simp only [stepServer, handleMessage]
            rw [registerReceiver_fst]
            by_cases hr : licenseRejected (lookupLicense env lk) now
            · simp only [hr, if_true]
              exact ih
            · simp only [hr, Bool.false_eq_true, if_false]
              exact ⟨ih.1, nodup_keys_mapSet _ _ _ ih.2⟩
          · rcases t with _ | tr
            · simpa [stepServer, handleMessage] using ih
            · simpa [stepServer, handleMessage] using ih
          · have hstate :
                (stepServer env s' (.message c w ip (.msg .ping) now)).1
                  = (handlePing c now s').1 := by
              by_cases hf : w.sendFails <;>
                simp [stepServer, handleMessage, hf]
            constructor
            · rw [hstate, handlePing_masters_keys]
              exact ih.1
            · rw [hstate, handlePing_receivers_keys]
              exact ih.2
          · simpa [stepServer, handleMessage] using ih
      · simp only [stepServer]
        rw [unregisterReceiver_fst, unregisterMaster_fst]
        by_cases hm : mapHas s'.masters c
        · simp only [hm, if_true]
          by_cases hr : mapHas s'.receivers c
          · simp only [hr, if_true]
            exact ⟨nodup_keys_mapDelete _ _ ih.1, nodup_keys_mapDelete _ _ ih.2⟩
          · simp only [hr, Bool.false_eq_true, if_false]
            exact ⟨nodup_keys_mapDelete _ _ ih.1, ih.2⟩
        · simp only [hm, Bool.false_eq_true, if_false]
          by_cases hr : mapHas s'.receivers c
          · simp only [hr, if_true]
            exact ⟨ih.1, nodup_keys_mapDelete _ _ ih.2⟩
          · simp only [hr, Bool.false_eq_true, if_false]
            exact ih

/-- License environment for the C7 counterexample: one active,
far-from-expired license `L1`. -/
def envC7 : String → Option License := fun k =>
  if k = "L1" then some ⟨"L1", "user", "active", 1000000, none, some 0⟩
  else none

/-- The same connection first registers as a master (valid API key),
then as a receiver (valid license). -/
def c7ev1 : Event :=
  .message "c1" ⟨1, false⟩ "ip"
    (.msg (.registerMaster (.vstr "0123456789ABCDEFG"))) 0

def c7ev2 : Event :=
  .message "c1" ⟨1, false⟩ "ip"
    (.msg (.registerReceiver (.vstr "L1") .vundefined)) 0

def c7DualState : ServerState :=
  (stepServer envC7 (stepServer envC7 ⟨[], []⟩ c7ev1).1 c7ev2).1

/-- C7 counterexample: a reachable registry state in which the same
sessionId is simultaneously present in the master and the receiver
partition — neither register handler checks the other partition, so a
connection that sends register-master and then register-receiver holds
both roles at once, refuting "each sessionId is present in at most one
role partition". -/
theorem dual_role_reachable :
    Reachable envC7 c7DualState
    ∧ mapHas c7DualState.masters "c1" = true
    ∧ mapHas c7DualState.receivers "c1" = true := by
  refine ⟨?_, by decide, by decide⟩
  exact Reachable.step (Reachable.step Reachable.init c7ev1) c7ev2

theorem partition_keys_unique_witness :
    (((stepServer envC7 ⟨[], []⟩ c7ev1).1).masters.map Prod.fst).Nodup
    ∧ (((stepServer envC7 ⟨[], []⟩ c7ev1).1).receivers.map Prod.fst).Nodup :=
  partition_keys_unique envC7 _ (Reachable.step Reachable.init c7ev1)
